import Mathlib

/-!
Verification of the chess-image-generator rendering core.

The JavaScript source `src/chess-image-generator.js` is shallowly embedded
below.  Pure computations become Lean functions over `ℚ` (pixel arithmetic),
`ℕ` (loop indices) and `String` (square names, colors, piece codes); the
mutable instance state of a `ChessImageGenerator` object becomes an explicit
`GenState` record threaded through the operations; JavaScript exceptions
become `Except String` results.  The drawing surface is modelled as a trace
of draw operations (`DrawOp`).

The repository modules `./config/index` and `./arrow`, and the external
rules-engine collaborator (`chess.js`), are not part of the provided core
source; the small pieces of them the core uses are modelled from the
specification and marked as such.
-/

/-- Modelled from the spec: the fixed ordered list of the 8 file letters
(config module `cols`, not in the provided source). -/
def cols : List String := ["a", "b", "c", "d", "e", "f", "g", "h"]

/-- Modelled from the spec: the uppercase (white) single-character piece
codes (config module `white`, not in the provided source). -/
def white : List String := ["P", "N", "B", "R", "Q", "K"]

/-- Modelled from the spec: the lowercase (black) single-character piece
codes (config module `black`, not in the provided source). -/
def black : List String := ["p", "n", "b", "r", "q", "k"]

/-- Modelled from the spec: `col2n` from the arrow module (not in the
provided source) resolves a file letter to its board column index, the
index of that letter in `cols`. -/
def col2n (c : Char) : ℕ :=
  if c = 'a' then 0
  else if c = 'b' then 1
  else if c = 'c' then 2
  else if c = 'd' then 3
  else if c = 'e' then 4
  else if c = 'f' then 5
  else if c = 'g' then 6
  else if c = 'h' then 7
  else 0

/-- Modelled from the spec: the sprite file-name table of the config module
(not in the provided source) is keyed by color+kind; the concrete file
names are irrelevant to the rendering logic, so the key itself stands in
for the name. -/
def filePaths (key : String) : String := key

/-- A piece as the rules engine hands it back: `type` is the lowercase
piece letter, `color` is "w" or "b", exactly as in the JavaScript object
`{ type, color }`. -/
structure Piece where
  type : String
  color : String
deriving DecidableEq

/-- Modelled from the spec: the rules-engine collaborator's board state, a
mapping from algebraic square name to optional piece (spec section 6:
`getPieceAt`, `setPieceAt`, `clearBoard`). -/
def Position : Type := String → Option Piece

/-- Modelled from the spec: `setPieceAt` — place a piece on a square,
replacing any occupant. -/
def Position.put (pos : Position) (pc : Piece) (sq : String) : Position :=
  fun s => if s = sq then some pc else pos s

/-- Modelled from the spec: `clearBoard` — the empty board. -/
def Position.clear : Position := fun _ => none

/-- Four-sided padding, in the source's array order
`[top, right, bottom, left]` (`padding[0] .. padding[3]`). -/
structure Padding where
  top : ℚ
  right : ℚ
  bottom : ℚ
  left : ℚ
deriving DecidableEq

/-- Modelled from the spec: the default configuration values exported by
the config module (not in the provided source).  Their concrete values
never matter to the claims, so they stay abstract as a parameter record. -/
structure Defaults where
  size : ℚ
  padding : Padding
  light : String
  dark : String
  highlight : String
  style : String
deriving DecidableEq

/-- The optional constructor options object.  A field holds `none` when the
property is absent from the JavaScript options object, and `some v` when it
is present with value `v` (possibly falsy). -/
structure Options where
  size : Option ℚ
  padding : Option Padding
  light : Option String
  dark : Option String
  highlight : Option String
  style : Option String
  flipped : Option Bool
deriving DecidableEq

/-- JavaScript `a || b` for a possibly-absent number `a`: a number is falsy
exactly when it is 0 (NaN does not arise in ℚ). -/
def jsOrQ (v : Option ℚ) (d : ℚ) : ℚ :=
  match v with
  | none => d
  | some x => if x = 0 then d else x

/-- JavaScript `a || b` for a possibly-absent string `a`: a string is falsy
exactly when it is empty. -/
def jsOrStr (v : Option String) (d : String) : String :=
  match v with
  | none => d
  | some s => if s = "" then d else s

/-- JavaScript `a || b` for a possibly-absent array `a`: an array object is
always truthy, so only absence selects the default. -/
def jsOrPadding (v : Option Padding) (d : Padding) : Padding :=
  match v with
  | none => d
  | some p => p

/-- JavaScript `a || false` for a possibly-absent boolean. -/
def jsOrBool (v : Option Bool) : Bool :=
  match v with
  | none => false
  | some b => b

/-- An arrow annotation `{ from, to, color }` (`from`/`to` are algebraic
square names; Lean reserves `from`, hence `fromSq`/`toSq`). -/
structure Arrow where
  fromSq : String
  toSq : String
  color : String
deriving DecidableEq

/-- The mutable field state of one `ChessImageGenerator` instance.
`arrows` is `none` while the field is still the JavaScript `undefined`
(the constructor never initializes it) and `some l` once `addArrows` has
run. -/
structure GenState where
  chess : Position
  highlightedSquares : List String
  size : ℚ
  padding : Padding
  light : String
  dark : String
  highlight : String
  style : String
  flipped : Bool
  arrows : Option (List Arrow)
  ready : Bool

/-- The constructor `ChessImageGenerator(options = {})`: each configuration
field is `options.x || defaultX`; `highlightedSquares` starts empty,
`ready` starts false, and `arrows` is never assigned (stays undefined). -/
def ChessImageGenerator (d : Defaults) (options : Options) : GenState where
  chess := Position.clear
  highlightedSquares := []
  size := jsOrQ options.size d.size
  padding := jsOrPadding options.padding d.padding
  light := jsOrStr options.light d.light
  dark := jsOrStr options.dark d.dark
  highlight := jsOrStr options.highlight d.highlight
  style := jsOrStr options.style d.style
  flipped := jsOrBool options.flipped
  arrows := none
  ready := false

/-- An options object with every property absent, the JavaScript `{}`. -/
def emptyOptions : Options :=
  ⟨none, none, none, none, none, none, none⟩

/-- `loadPGN(pgn)`: the rules-engine verdict is passed in as `res`
(`none` = `load_pgn` returned false, `some p` = it succeeded and the
engine's board now holds `p`).  On failure the method throws "PGN could
not be read successfully" and writes nothing; on success it sets `ready`. -/
def loadPGN (st : GenState) (res : Option Position) :
    GenState × Except String Unit :=
  match res with
  | none => (st, Except.error ("PGN could not be read successfully"))
  | some p => ({ st with chess := p, ready := true }, Except.ok ())

/-- `loadFEN(fen)`: same shape as `loadPGN` with the FEN error message. -/
def loadFEN (st : GenState) (res : Option Position) :
    GenState × Except String Unit :=
  match res with
  | none => (st, Except.error ("FEN could not be read successfully"))
  | some p => ({ st with chess := p, ready := true }, Except.ok ())

/-- `addArrows(arrows)`: assigns `this.arrows`. -/
def addArrows (st : GenState) (l : List Arrow) : GenState :=
  { st with arrows := some l }

/-- `highlightSquares(array)`: replaces the highlighted-square list. -/
def highlightSquares (st : GenState) (l : List String) : GenState :=
  { st with highlightedSquares := l }

/-- JavaScript `toLowerCase()` on the ASCII strings involved here:
lowercase every character. -/
def strToLower (s : String) : String := String.mk (s.data.map Char.toLower)

/-- JavaScript `toUpperCase()` on the ASCII strings involved here:
uppercase every character. -/
def strToUpper (s : String) : String := String.mk (s.data.map Char.toUpper)

/-- The algebraic square name `cols[j] + (8 - i)` the grid loader targets
for the cell at row `i`, column `j`. -/
def squareName (i j : ℕ) : String :=
  cols.getD j ("") ++ toString (8 - i)

/-- One inner-loop step of `loadArray`: if the cell is non-empty and its
lowercase form is a known piece letter, put
`{ type: cell.toLowerCase(), color: white.includes(cell) ? "w" : "b" }`
on `cols[j] + (8 - i)`; otherwise do nothing. -/
def putCell (pos : Position) (i j : ℕ) (c : String) : Position :=
  if c ≠ "" ∧ strToLower c ∈ black then
    Position.put pos ⟨strToLower c, if c ∈ white then ("w") else ("b")⟩ (squareName i j)
  else pos

/-- The inner `for j` loop of `loadArray` over the remaining cells of row
`i`, starting at column `j`. -/
def loadCells (pos : Position) (i : ℕ) : ℕ → List String → Position
  | _, [] => pos
  | j, c :: rest => loadCells (putCell pos i j c) i (j + 1) rest

/-- The outer `for i` loop of `loadArray` over the remaining rows, starting
at row `i`. -/
def loadRows (pos : Position) : ℕ → List (List String) → Position
  | _, [] => pos
  | i, r :: rest => loadRows (loadCells pos i 0 r) (i + 1) rest

/-- The board produced by `loadArray(array)`: `chess.clear()` then the two
nested loops. -/
def loadArrayPos (grid : List (List String)) : Position :=
  loadRows Position.clear 0 grid

/-- `loadArray(array)`: clears the board, loads the grid, sets `ready`
unconditionally. -/
def loadArray (st : GenState) (grid : List (List String)) : GenState :=
  { st with chess := loadArrayPos grid, ready := true }

/-- The row mapper of `generateBuffer`:
`this.flipped ? (r) => r + 1 : (r) => 7 - r + 1`. -/
def rowMap (flipped : Bool) (r : ℕ) : ℕ :=
  if flipped then r + 1 else 7 - r + 1

/-- The column mapper of `generateBuffer`:
`this.flipped ? (c) => c : (c) => 7 - c`. -/
def colMap (flipped : Bool) (c : ℕ) : ℕ :=
  if flipped then c else 7 - c

/-- The algebraic name of the cell drawn at rendering indices `(i, j)`:
`cols[col(j)] + row(i)`. -/
def cellCoords (flipped : Bool) (i j : ℕ) : String :=
  cols.getD (colMap flipped j) ("") ++ toString (rowMap flipped i)

/-- One recorded operation on the drawing surface. -/
inductive DrawOp where
  | fillRect (x y w h : ℚ) (color : String)
  | drawImage (file : String) (x y w h : ℚ)
  | arrow (x1 y1 x2 y2 headSize : ℚ) (color : String)
deriving DecidableEq

/-- The dark-square fill of cell `(i, j)`: emitted iff `(i + j) % 2 === 0`,
at `x = (size/8)*(7-j+1) - size/8 + padding[3]`,
`y = (size/8)*i + padding[0]`, side `size/8`. -/
def darkOps (st : GenState) (i j : ℕ) : List DrawOp :=
  if (i + j) % 2 = 0 then
    [DrawOp.fillRect
      (st.size / 8 * (7 - (j : ℚ) + 1) - st.size / 8 + st.padding.left)
      (st.size / 8 * (i : ℚ) + st.padding.top)
      (st.size / 8) (st.size / 8) st.dark]
  else []

/-- The highlight fill of cell `(i, j)`: emitted iff its algebraic square
is in `highlightedSquares`, at the same rectangle as the dark fill. -/
def highlightOps (st : GenState) (i j : ℕ) : List DrawOp :=
  if cellCoords st.flipped i j ∈ st.highlightedSquares then
    [DrawOp.fillRect
      (st.size / 8 * (7 - (j : ℚ) + 1) - st.size / 8 + st.padding.left)
      (st.size / 8 * (i : ℚ) + st.padding.top)
      (st.size / 8) (st.size / 8) st.highlight]
  else []

/-- The piece sprite of cell `(i, j)`: if `chess.get` returns a piece whose
type is a known letter, draw
`resources/${style}/${filePaths[color+type]}.png` scaled into the same
rectangle. -/
def pieceOps (st : GenState) (i j : ℕ) : List DrawOp :=
  match st.chess (cellCoords st.flipped i j) with
  | none => []
  | some piece =>
    if piece.type ≠ "" ∧ strToLower piece.type ∈ black then
      [DrawOp.drawImage
        ("resources/" ++ st.style ++ "/" ++ filePaths (piece.color ++ piece.type) ++ ".png")
        (st.size / 8 * (7 - (j : ℚ) + 1) - st.size / 8 + st.padding.left)
        (st.size / 8 * (i : ℚ) + st.padding.top)
        (st.size / 8) (st.size / 8)]
    else []

/-- Everything the cell loop draws for cell `(i, j)`, in source order:
dark fill, then highlight fill, then piece sprite. -/
def cellOps (st : GenState) (i j : ℕ) : List DrawOp :=
  darkOps st i j ++ highlightOps st i j ++ pieceOps st i j

/-- The digit value of a rank character, the JavaScript numeric coercion of
a one-digit string. -/
def charDigit (c : Char) : ℕ := c.toNat - 48

/-- The arrow-endpoint row slot `row(sq[1] - 1)` of an algebraic square. -/
def arrowR (flipped : Bool) (sq : String) : ℕ :=
  rowMap flipped (charDigit (sq.toList.getD 1 ' ') - 1)

/-- The arrow-endpoint column slot `8 - col(col2n[sq[0]])` of an algebraic
square. -/
def arrowC (flipped : Bool) (sq : String) : ℕ :=
  8 - colMap flipped (col2n (sq.toList.getD 0 ' '))

/-- The center-pixel helper `rc2xy = (a) => a * sq - sq / 2` with
`sq = size / 8`. -/
def rc2xy (size : ℚ) (a : ℚ) : ℚ := a * (size / 8) - size / 8 / 2

/-- One `drawArrow` call of the arrow loop: endpoint centers from
`rc2xy(fromC/ fromR/ toC/ toR)` plus padding offsets, head size `sq / 10`. -/
def arrowOp (st : GenState) (a : Arrow) : DrawOp :=
  DrawOp.arrow
    (rc2xy st.size (arrowC st.flipped a.fromSq) + st.padding.left)
    (rc2xy st.size (arrowR st.flipped a.fromSq) + st.padding.top)
    (rc2xy st.size (arrowC st.flipped a.toSq) + st.padding.left)
    (rc2xy st.size (arrowR st.flipped a.toSq) + st.padding.top)
    (st.size / 8 / 10) a.color

/-- The finished surface: canvas dimensions plus the trace of draw
operations in issue order. -/
structure RenderOutput where
  width : ℚ
  height : ℚ
  ops : List DrawOp
deriving DecidableEq

/-- `generateBuffer()`.  Not ready: throws "Load a position first".
Otherwise: canvas of `size + padding[1] + padding[3]` by
`size + padding[0] + padding[2]`, background light fill, the 8×8 cell loop,
then `this.arrows.forEach(...)` — which, when `addArrows` was never called,
dereferences `undefined` and throws a TypeError.  The returned state is the
instance state after the call (the method assigns no fields). -/
def generateBuffer (st : GenState) : GenState × Except String RenderOutput :=
  if st.ready = false then (st, Except.error ("Load a position first"))
  else
    let width := st.size + st.padding.right + st.padding.left
    let height := st.size + st.padding.top + st.padding.bottom
    let background := DrawOp.fillRect 0 0 width height st.light
    let cells := (List.range 8).flatMap fun i => (List.range 8).flatMap fun j => cellOps st i j
    match st.arrows with
    | none => (st, Except.error ("TypeError"))
    | some l =>
      (st, Except.ok ⟨width, height, background :: cells ++ l.map (arrowOp st)⟩)

/-- `generatePNG(pngPath)`: the same not-ready guard, then the buffer from
`generateBuffer`; the actual file write is a fire-and-forget call into the
external file-system collaborator and is not part of the model. -/
def generatePNG (st : GenState) (_pngPath : String) :
    GenState × Except String RenderOutput :=
  if st.ready = false then (st, Except.error ("Load a position first"))
  else generateBuffer st

/-- One public call on a renderer instance, with the external collaborator
verdicts baked in as parameters. -/
inductive Op where
  | opLoadPGN (res : Option Position)
  | opLoadFEN (res : Option Position)
  | opLoadArray (grid : List (List String))
  | opAddArrows (l : List Arrow)
  | opHighlightSquares (l : List String)
  | opGenerateBuffer
  | opGeneratePNG (pngPath : String)

/-- The instance state after one call (for a throwing call, the state at
the moment of the throw). -/
def run (st : GenState) : Op → GenState
  | Op.opLoadPGN res => (loadPGN st res).1
  | Op.opLoadFEN res => (loadFEN st res).1
  | Op.opLoadArray grid => loadArray st grid
  | Op.opAddArrows l => addArrows st l
  | Op.opHighlightSquares l => highlightSquares st l
  | Op.opGenerateBuffer => (generateBuffer st).1
  | Op.opGeneratePNG p => (generatePNG st p).1

/-- The instance state after a sequence of calls. -/
def runList (st : GenState) (ops : List Op) : GenState :=
  ops.foldl run st

/-- Whether a call is a load call that succeeds: `loadArray` always does,
the notation loads exactly when the rules engine accepts the input. -/
def successfulLoad : Op → Bool
  | Op.opLoadPGN res => res.isSome
  | Op.opLoadFEN res => res.isSome
  | Op.opLoadArray _ => true
  | _ => false

/-- The 64 algebraic square names, the observation domain for counting
occupied squares. -/
def squareNames : List String :=
  (List.range 8).flatMap fun r => cols.map fun f => f ++ toString (r + 1)

/-- How many of the 64 squares hold a piece. -/
def occupiedCount (pos : Position) : ℕ :=
  squareNames.countP fun s => (pos s).isSome

/-- The boolean form of `loadArray`'s cell guard
`cell !== "" && black.includes(cell.toLowerCase())`. -/
def activeB (c : String) : Bool := decide (c ≠ "" ∧ strToLower c ∈ black)

lemma squareNames_nodup : squareNames.Nodup := by decide

lemma squareName_mem_fin : ∀ (i j : Fin 8), squareName i.val j.val ∈ squareNames := by
  decide

lemma squareName_inj_fin : ∀ (i j i2 j2 : Fin 8),
    squareName i.val j.val = squareName i2.val j2.val → i = i2 ∧ j = j2 := by decide

lemma squareName_mem (i j : ℕ) (hi : i < 8) (hj : j < 8) : squareName i j ∈ squareNames :=
  squareName_mem_fin ⟨i, hi⟩ ⟨j, hj⟩

lemma squareName_ne (i j i2 j2 : ℕ) (hi : i < 8) (hj : j < 8) (hi2 : i2 < 8) (hj2 : j2 < 8)
    (h : ¬(i = i2 ∧ j = j2)) : squareName i j ≠ squareName i2 j2 := by
  intro he
  rcases squareName_inj_fin ⟨i, hi⟩ ⟨j, hj⟩ ⟨i2, hi2⟩ ⟨j2, hj2⟩ he with ⟨h1, h2⟩
  exact h ⟨congrArg Fin.val h1, congrArg Fin.val h2⟩

lemma put_apply_ne (pos : Position) (pc : Piece) (sq s : String) (h : s ≠ sq) :
    Position.put pos pc sq s = pos s := if_neg h

lemma countP_put (l : List String) (pos : Position) (pc : Piece) (k : String) :
    l.Nodup → k ∈ l → pos k = none →
    (l.countP fun s => (Position.put pos pc k s).isSome)
      = (l.countP fun s => (pos s).isSome) + 1 := by
  induction l with
  | nil => intro _ hk; cases hk
  | cons a t ih =>
    intro hnd hk hnone
    rcases List.mem_cons.mp hk with rfl | hkt
    · have h1 : (Position.put pos pc k k).isSome = true := by
        simp [Position.put]
      have h2 : (t.countP fun s => (Position.put pos pc k s).isSome)
          = t.countP fun s => (pos s).isSome := by
        apply List.countP_congr
        intro s hs
        have : s ≠ k := fun he => (List.nodup_cons.mp hnd).1 (he ▸ hs)
        rw [put_apply_ne pos pc k s this]
      rw [List.countP_cons, List.countP_cons, h1, h2, hnone]
      simp
    · have hak : a ≠ k := fun he => (List.nodup_cons.mp hnd).1 (he ▸ hkt)
      have h1 : (Position.put pos pc k a).isSome = (pos a).isSome := by
        rw [put_apply_ne pos pc k a hak]
      rw [List.countP_cons, List.countP_cons, h1,
        ih (List.nodup_cons.mp hnd).2 hkt hnone]
      omega

lemma occupiedCount_put (pos : Position) (pc : Piece) (i j : ℕ) (hi : i < 8) (hj : j < 8)
    (hnone : pos (squareName i j) = none) :
    occupiedCount (Position.put pos pc (squareName i j)) = occupiedCount pos + 1 :=
  countP_put squareNames pos pc (squareName i j) squareNames_nodup
    (squareName_mem i j hi hj) hnone

lemma loadCells_cons (pos : Position) (i j : ℕ) (c : String) (rest : List String) :
    loadCells pos i j (c :: rest) = loadCells (putCell pos i j c) i (j + 1) rest := rfl

lemma loadCells_apply_ne (row : List String) : ∀ (pos : Position) (i j : ℕ) (s : String),
    (∀ k, j ≤ k → k < j + row.length → s ≠ squareName i k) →
    loadCells pos i j row s = pos s := by
  induction row with
  | nil => intro pos i j s _; rfl
  | cons c rest ih =>
    intro pos i j s h
    rw [loadCells_cons, ih]
    · unfold putCell
      split
      · exact put_apply_ne _ _ _ _ (h j (le_refl j) (by simp))
      · rfl
    · intro k hk1 hk2
      exact h k (by omega) (by simpa [Nat.add_comm, Nat.add_assoc] using by omega)

lemma loadCells_count (row : List String) : ∀ (pos : Position) (i j : ℕ),
    i < 8 → j + row.length ≤ 8 →
    (∀ k, j ≤ k → k < 8 → pos (squareName i k) = none) →
    occupiedCount (loadCells pos i j row) = occupiedCount pos + row.countP activeB := by
  induction row with
  | nil => intro pos i j _ _ _; simp [loadCells]
  | cons c rest ih =>
    intro pos i j hi hlen hfresh
    have hj : j < 8 := by simp at hlen; omega
    rw [loadCells_cons]
    by_cases hc : c ≠ "" ∧ strToLower c ∈ black
    · have hput : putCell pos i j c
          = Position.put pos ⟨strToLower c, if c ∈ white then ("w") else ("b")⟩
              (squareName i j) := by
        unfold putCell; rw [if_pos hc]
      have hfresh2 : ∀ k, j + 1 ≤ k → k < 8 →
          putCell pos i j c (squareName i k) = none := by
        intro k hk1 hk2
        rw [hput, put_apply_ne]
        · exact hfresh k (by omega) hk2
        · exact squareName_ne i k i j hi hk2 hi hj (by omega)
      rw [ih (putCell pos i j c) i (j + 1) hi (by simp at hlen ⊢; omega) hfresh2]
      rw [hput, occupiedCount_put pos _ i j hi hj (hfresh j (le_refl j) hj)]
      have hcb : activeB c = true := by simp [activeB, hc.1, hc.2]
      rw [List.countP_cons, hcb]
      simp only [if_true, eq_self_iff_true]
      omega
    · have hput : putCell pos i j c = pos := by
        unfold putCell; rw [if_neg hc]
      rw [hput, ih pos i (j + 1) hi (by simp at hlen ⊢; omega)
        (fun k hk1 hk2 => hfresh k (by omega) hk2)]
      have hcb : activeB c = false := by simp [activeB]; tauto
      rw [List.countP_cons, hcb]
      simp

lemma loadCells_apply_mem (row : List String) : ∀ (pos : Position) (i j k : ℕ),
    i < 8 → j + row.length ≤ 8 → j ≤ k → k < j + row.length →
    loadCells pos i j row (squareName i k) =
      (if activeB (row.getD (k - j) ("")) then
        some ⟨strToLower (row.getD (k - j) ("")),
              if row.getD (k - j) ("") ∈ white then ("w") else ("b")⟩
       else pos (squareName i k)) := by
  induction row with
  | nil => intro pos i j k _ _ h1 h2; simp at h2; omega
  | cons c rest ih =>
    intro pos i j k hi hlen hjk hk
    rw [loadCells_cons]
    rcases Nat.eq_or_lt_of_le hjk with rfl | hlt
    · have hne : ∀ k2, j + 1 ≤ k2 → k2 < (j + 1) + rest.length →
          squareName i j ≠ squareName i k2 := by
        intro k2 h1 h2
        simp only [List.length_cons] at hlen h2
        exact squareName_ne i j i k2 hi (by omega) hi (by omega) (by omega)
      rw [loadCells_apply_ne rest _ i (j + 1) _ hne]
      simp only [Nat.sub_self, List.getD_cons_zero]
      unfold putCell
      by_cases hc : c ≠ "" ∧ strToLower c ∈ black
      · rw [if_pos hc]
        have hcb : activeB c = true := by simp [activeB, hc.1, hc.2]
        rw [hcb, if_pos rfl]
        simp [Position.put]
      · rw [if_neg hc]
        have hcb : activeB c = false := by simp [activeB]; tauto
        rw [hcb]
        simp
    · have hstep : putCell pos i j c (squareName i k) = pos (squareName i k) := by
        unfold putCell
        split
        · exact put_apply_ne _ _ _ _
            (squareName_ne i k i j hi (by simp at hlen hk; omega) hi (by simp at hlen; omega)
              (by omega))
        · rfl
      rw [ih (putCell pos i j c) i (j + 1) k hi (by simp at hlen ⊢; omega) hlt
        (by simp at hk ⊢; omega), hstep]
      have : k - (j + 1) + 1 = k - j := by omega
      rw [show (c :: rest).getD (k - j) ("") = rest.getD (k - (j + 1)) ("") by
        rw [← this, List.getD_cons_succ]]

lemma loadRows_cons (pos : Position) (i : ℕ) (r : List String) (rest : List (List String)) :
    loadRows pos i (r :: rest) = loadRows (loadCells pos i 0 r) (i + 1) rest := rfl

lemma loadRows_apply_ne (rows : List (List String)) : ∀ (pos : Position) (i : ℕ) (s : String),
    (∀ r ∈ rows, r.length ≤ 8) →
    (∀ i2 k, i ≤ i2 → i2 < i + rows.length → k < 8 → s ≠ squareName i2 k) →
    loadRows pos i rows s = pos s := by
  induction rows with
  | nil => intro pos i s _ _; rfl
  | cons r rest ih =>
    intro pos i s hlens h
    rw [loadRows_cons, ih]
    · apply loadCells_apply_ne
      intro k hk1 hk2
      refine h i k (le_refl i) (by simp) ?_
      have := hlens r (List.mem_cons_self r rest)
      omega
    · intro r2 hr2; exact hlens r2 (List.mem_cons_of_mem r hr2)
    · intro i2 k h1 h2 h3
      refine h i2 k (by omega) (by simp at h2 ⊢; omega) h3

lemma loadRows_count (rows : List (List String)) : ∀ (pos : Position) (i : ℕ),
    i + rows.length ≤ 8 → (∀ r ∈ rows, r.length ≤ 8) →
    (∀ i2 k, i ≤ i2 → i2 < 8 → k < 8 → pos (squareName i2 k) = none) →
    occupiedCount (loadRows pos i rows)
      = occupiedCount pos + (rows.map fun r => r.countP activeB).sum := by
  induction rows with
  | nil => intro pos i _ _ _; simp [loadRows]
  | cons r rest ih =>
    intro pos i hlen hlens hfresh
    have hi : i < 8 := by simp at hlen; omega
    have hr8 : r.length ≤ 8 := hlens r (List.mem_cons_self r rest)
    rw [loadRows_cons]
    have hfresh2 : ∀ i2 k, i + 1 ≤ i2 → i2 < 8 → k < 8 →
        loadCells pos i 0 r (squareName i2 k) = none := by
      intro i2 k h1 h2 h3
      rw [loadCells_apply_ne]
      · exact hfresh i2 k (by omega) h2 h3
      · intro k2 hk1 hk2
        exact squareName_ne i2 k i k2 h2 h3 hi (by omega) (by omega)
    rw [ih (loadCells pos i 0 r) (i + 1) (by simp at hlen ⊢; omega)
      (fun r2 hr2 => hlens r2 (List.mem_cons_of_mem r hr2)) hfresh2]
    rw [loadCells_count r pos i 0 hi (by omega)
      (fun k _ hk2 => hfresh i k (le_refl i) hi hk2)]
    simp [Nat.add_assoc]

lemma loadRows_apply_mem (rows : List (List String)) : ∀ (pos : Position) (i i2 k : ℕ),
    i + rows.length ≤ 8 → (∀ r ∈ rows, r.length = 8) →
    i ≤ i2 → i2 < i + rows.length → k < 8 →
    loadRows pos i rows (squareName i2 k) =
      (if activeB ((rows.getD (i2 - i) []).getD k ("")) then
        some ⟨strToLower ((rows.getD (i2 - i) []).getD k ("")),
              if (rows.getD (i2 - i) []).getD k ("") ∈ white then ("w") else ("b")⟩
       else pos (squareName i2 k)) := by
  induction rows with
  | nil => intro pos i i2 k _ _ h1 h2; simp at h2; omega
  | cons r rest ih =>
    intro pos i i2 k hlen hlens hii2 hi2 hk
    have hi : i < 8 := by simp at hlen; omega
    have hr8 : r.length = 8 := hlens r (List.mem_cons_self r rest)
    rw [loadRows_cons]
    rcases Nat.eq_or_lt_of_le hii2 with rfl | hlt
    · rw [loadRows_apply_ne rest _ (i + 1) _
        (fun r2 hr2 => le_of_eq (hlens r2 (List.mem_cons_of_mem r hr2)))
        (fun i3 k3 h1 h2 h3 => squareName_ne i k i3 k3 hi hk
          (by simp at hlen h2; omega) h3 (by omega))]
      rw [loadCells_apply_mem r pos i 0 k hi (by omega) (Nat.zero_le k) (by omega)]
      simp only [Nat.sub_self, List.getD_cons_zero, Nat.sub_zero]
    · have hstep : loadCells pos i 0 r (squareName i2 k) = pos (squareName i2 k) := by
        apply loadCells_apply_ne
        intro k2 _ hk2
        exact squareName_ne i2 k i k2 (by simp at hlen hi2; omega) hk hi (by omega)
          (by omega)
      rw [ih (loadCells pos i 0 r) (i + 1) i2 k (by simp at hlen ⊢; omega)
        (fun r2 hr2 => hlens r2 (List.mem_cons_of_mem r hr2)) hlt
        (by simp at hi2 ⊢; omega) hk, hstep]
      have : i2 - (i + 1) + 1 = i2 - i := by omega
      rw [show (r :: rest).getD (i2 - i) [] = rest.getD (i2 - (i + 1)) [] by
        rw [← this, List.getD_cons_succ]]

/-- The cell of a grid at row `i`, column `j` (empty string when out of
range, as JavaScript indexing would give `undefined`). -/
def gridCell (g : List (List String)) (i j : ℕ) : String :=
  (g.getD i []).getD j ("")

/-- How many cells of a grid are non-empty strings. -/
def totalNonempty (g : List (List String)) : ℕ :=
  (g.map fun r => r.countP fun c => !(c == "")).sum

/-- The single-character piece codes of the spec (either case) together
with the empty string: the values a cell of a well-formed input grid may
hold. -/
def validCells : List String :=
  ["", "p", "P", "n", "N", "b", "B", "r", "R", "q", "Q", "k", "K"]

lemma validCells_active : ∀ c ∈ validCells, activeB c = !(c == "") := by decide

lemma validCells_white : ∀ c ∈ validCells, c ≠ "" →
    ((if c ∈ white then ("w") else ("b")) = ("w") ↔ strToUpper c = c) := by decide

lemma occupiedCount_clear : occupiedCount Position.clear = 0 := by decide

/-- C3: loading an 8×8 grid of single-character piece codes leaves exactly
as many occupied squares as the grid has non-empty cells; every non-empty
cell's square holds a piece whose kind is the lowercased letter and whose
color is white exactly when the letter was uppercase; and the resulting
board does not depend on the prior state, so a second load fully replaces
the first. -/
theorem loadArray_counts_and_replaces (g : List (List String)) (st st2 : GenState)
    (hlen : g.length = 8) (hrows : ∀ row ∈ g, row.length = 8)
    (hvalid : ∀ row ∈ g, ∀ cell ∈ row, cell ∈ validCells) :
    occupiedCount (loadArray st g).chess = totalNonempty g
    ∧ (∀ i j, i < 8 → j < 8 → gridCell g i j ≠ "" →
        (loadArray st g).chess (squareName i j)
          = some ⟨strToLower (gridCell g i j),
                  if gridCell g i j ∈ white then ("w") else ("b")⟩
        ∧ ((if gridCell g i j ∈ white then ("w") else ("b")) = ("w")
            ↔ strToUpper (gridCell g i j) = gridCell g i j))
    ∧ (loadArray st g).chess = (loadArray st2 g).chess := by
  have hchess : (loadArray st g).chess = loadArrayPos g := rfl
  refine ⟨?_, ?_, rfl⟩
  · rw [hchess]
    unfold loadArrayPos
    rw [loadRows_count g Position.clear 0 (by omega)
      (fun r hr => le_of_eq (hrows r hr)) (fun _ _ _ _ _ => rfl)]
    rw [occupiedCount_clear]
    have hmap : ∀ r ∈ g, r.countP activeB = r.countP fun c => !(c == "") := by
      intro r hr
      exact List.countP_congr fun c hc => by rw [validCells_active c (hvalid r hr c hc)]
    unfold totalNonempty
    rw [List.map_congr_left hmap]
    simp
  · intro i j hi hj hne
    have hig : i < g.length := by omega
    have hrow_mem : g.getD i [] ∈ g := by
      rw [List.getD_eq_getElem g [] hig]
      exact List.getElem_mem hig
    have hjr : j < (g.getD i []).length := by rw [hrows _ hrow_mem]; exact hj
    have hcell_mem : gridCell g i j ∈ g.getD i [] := by
      unfold gridCell
      rw [List.getD_eq_getElem _ ("") hjr]
      exact List.getElem_mem hjr
    have hvc : gridCell g i j ∈ validCells := hvalid _ hrow_mem _ hcell_mem
    have hact : activeB (gridCell g i j) = true := by
      rw [validCells_active _ hvc]
      simpa using hne
    constructor
    · rw [hchess]
      unfold loadArrayPos gridCell
      rw [loadRows_apply_mem g Position.clear 0 i j (by omega) hrows (Nat.zero_le i)
        (by omega) hj]
      simp only [Nat.sub_zero]
      have hact2 : activeB ((g.getD i []).getD j ("")) = true := hact
      rw [hact2]
      rfl
    · exact validCells_white _ hvc hne

/-- A sample already-constructed instance state used to witness the
hypotheses of the theorems: empty board, no highlights, size 480, no
padding, not flipped, arrows never added, not ready. -/
def sampleState : GenState :=
  ⟨Position.clear, [], 480, ⟨0, 0, 0, 0⟩, ("#eee"), ("#111"), ("#f00"),
    ("merida"), false, none, false⟩

/-- A sample 8×8 grid with a black rook on a8 and a white king on h8. -/
def sampleGrid : List (List String) :=
  [["r", "", "", "", "", "", "", "K"],
   ["", "", "", "", "", "", "", ""],
   ["", "", "", "", "", "", "", ""],
   ["", "", "", "", "", "", "", ""],
   ["", "", "", "", "", "", "", ""],
   ["", "", "", "", "", "", "", ""],
   ["", "", "", "", "", "", "", ""],
   ["", "", "", "", "", "", "", ""]]

/-- Witness for C3 at the sample grid: its two non-empty cells leave
exactly two occupied squares. -/
theorem loadArray_counts_witness :
    occupiedCount (loadArray sampleState sampleGrid).chess = 2 := by
  have h := loadArray_counts_and_replaces sampleGrid sampleState sampleState
    (by decide) (by decide) (by decide)
  exact h.1.trans (by decide)

/-- C4: for rendering indices in 0..7, the unflipped row map sends `i` to
rank `8 - i` and the flipped one to rank `i + 1`; the unflipped column map
sends `j` to board column `7 - j` and the flipped one to `j`; the
algebraic file of the cell is the letter of `cols` at that board column. -/
theorem rowcol_mapping (i j : ℕ) (hi : i < 8) (_hj : j < 8) :
    rowMap false i = 8 - i ∧ rowMap true i = i + 1
    ∧ colMap false j = 7 - j ∧ colMap true j = j
    ∧ ∀ fl, cellCoords fl i j
        = cols.getD (colMap fl j) ("") ++ toString (rowMap fl i) := by
  refine ⟨?_, rfl, rfl, rfl, fun _ => rfl⟩
  unfold rowMap
  simp only [if_neg Bool.false_ne_true]
  omega

/-- Witness for C4 at indices (0, 0). -/
theorem rowcol_mapping_witness :
    rowMap false 0 = 8 - 0 ∧ rowMap true 0 = 0 + 1
    ∧ colMap false 0 = 7 - 0 ∧ colMap true 0 = 0
    ∧ ∀ fl, cellCoords fl 0 0
        = cols.getD (colMap fl 0) ("") ++ toString (rowMap fl 0) :=
  rowcol_mapping 0 0 (by decide) (by decide)

/-- C5: for every valid algebraic square and either flip state, taking the
arrow-endpoint grid indices (the inverse mapping `row(rank - 1)` and
`8 - col(col2n[file])`) and mapping the corresponding rendering indices
back through the forward cell naming returns the same square. -/
theorem arrow_roundtrip (fl : Bool) (fi r : Fin 8) :
    arrowR fl (cols.getD fi.val ("") ++ toString (r.val + 1)) - 1 < 8
    ∧ 8 - arrowC fl (cols.getD fi.val ("") ++ toString (r.val + 1)) < 8
    ∧ cellCoords fl (arrowR fl (cols.getD fi.val ("") ++ toString (r.val + 1)) - 1)
        (8 - arrowC fl (cols.getD fi.val ("") ++ toString (r.val + 1)))
      = cols.getD fi.val ("") ++ toString (r.val + 1) := by
  revert fl fi r
  decide

/-- Helper: `generateBuffer` assigns no instance fields, so the state it
hands back is the one it was given. -/
lemma generateBuffer_fst (st : GenState) : (generateBuffer st).1 = st := by
  unfold generateBuffer
  split
  · rfl
  · split <;> rfl

/-- Helper: neither does `generatePNG`. -/
lemma generatePNG_fst (st : GenState) (path : String) :
    (generatePNG st path).1 = st := by
  unfold generatePNG
  split
  · rfl
  · exact generateBuffer_fst st

/-- C9: a render leaves the whole model state — position, highlights,
arrows, readiness and all configuration fields — unchanged. -/
theorem generateBuffer_frame (st : GenState) : (generateBuffer st).1 = st :=
  generateBuffer_fst st

/-- C6: the dark fill of a cell is emitted iff `(i + j)` is even,
independently of the flip flag; unflipped, the cell named "a1" (indices
(7,7)) gets the dark fill and the cell named "h1" (indices (7,0)) does
not. -/
theorem dark_parity (st : GenState) (i j : ℕ) :
    (darkOps st i j ≠ [] ↔ (i + j) % 2 = 0)
    ∧ (∀ b, darkOps { st with flipped := b } i j = darkOps st i j)
    ∧ (st.flipped = false →
        cellCoords st.flipped 7 7 = ("a1") ∧ darkOps st 7 7 ≠ []
        ∧ cellCoords st.flipped 7 0 = ("h1") ∧ darkOps st 7 0 = []) := by
  refine ⟨?_, fun b => rfl, fun hf => ?_⟩
  · by_cases h : (i + j) % 2 = 0 <;> simp [darkOps, h]
  · rw [hf]
    exact ⟨by decide, by simp [darkOps], by decide, by simp [darkOps]⟩

/-- Witness for C6 at the sample state and indices (0, 1), with the
unflipped-orientation hypothesis discharged. -/
theorem dark_parity_witness :
    (darkOps sampleState 0 1 ≠ [] ↔ (0 + 1) % 2 = 0)
    ∧ (cellCoords sampleState.flipped 7 7 = ("a1") ∧ darkOps sampleState 7 7 ≠ []
        ∧ cellCoords sampleState.flipped 7 0 = ("h1")
        ∧ darkOps sampleState 7 0 = []) :=
  ⟨(dark_parity sampleState 0 1).1, (dark_parity sampleState 0 1).2.2 rfl⟩

/-- The pixel rectangle an operation covers, when it has one. -/
def opRect : DrawOp → Option (ℚ × ℚ × ℚ × ℚ)
  | DrawOp.fillRect x y w h _ => some (x, y, w, h)
  | DrawOp.drawImage _ x y w h => some (x, y, w, h)
  | DrawOp.arrow _ _ _ _ _ _ => none

/-- C8: on a ready instance with an arrow list, rendering succeeds with a
canvas of width `size + padding_left + padding_right` and height
`size + padding_top + padding_bottom`, and every operation the cell loop
emits for cell `(i, j)` — dark fill, highlight fill or piece sprite —
covers the rectangle `x = (size/8)*(7 - j + 1) - size/8 + padding_left`,
`y = (size/8)*i + padding_top`, with width and height `size/8`. -/
theorem render_geometry (st : GenState) (l : List Arrow)
    (hready : st.ready = true) (harrows : st.arrows = some l) :
    ∃ out, (generateBuffer st).2 = Except.ok out
      ∧ out.width = st.size + st.padding.left + st.padding.right
      ∧ out.height = st.size + st.padding.top + st.padding.bottom
      ∧ ∀ (i j : ℕ), ∀ op ∈ cellOps st i j,
          opRect op
            = some (st.size / 8 * (7 - (j : ℚ) + 1) - st.size / 8 + st.padding.left,
                st.size / 8 * (i : ℚ) + st.padding.top, st.size / 8, st.size / 8) := by
  refine ⟨⟨st.size + st.padding.right + st.padding.left,
    st.size + st.padding.top + st.padding.bottom, ?_⟩, ?_, by ring, by ring, ?_⟩
  · exact DrawOp.fillRect 0 0 (st.size + st.padding.right + st.padding.left)
      (st.size + st.padding.top + st.padding.bottom) st.light
      :: ((List.range 8).flatMap fun i => (List.range 8).flatMap fun j => cellOps st i j)
      ++ l.map (arrowOp st)
  · simp [generateBuffer, hready, harrows]
  · intro i j op hop
    unfold cellOps at hop
    rcases List.mem_append.mp hop with hop2 | hpc
    · rcases List.mem_append.mp hop2 with hd | hh
      · unfold darkOps at hd
        split at hd
        · rcases List.mem_singleton.mp hd with rfl
          rfl
        · cases hd
      · unfold highlightOps at hh
        split at hh
        · rcases List.mem_singleton.mp hh with rfl
          rfl
        · cases hh
    · unfold pieceOps at hpc
      split at hpc
      · cases hpc
      · split at hpc
        · rcases List.mem_singleton.mp hpc with rfl
          rfl
        · cases hpc

/-- The sample state after a successful load and an `addArrows([])` call. -/
def sampleReadyState : GenState :=
  { sampleState with ready := true, arrows := some [] }

/-- Witness for C8 at the sample ready state. -/
theorem render_geometry_witness :
    ∃ out, (generateBuffer sampleReadyState).2 = Except.ok out
      ∧ out.width = sampleReadyState.size + sampleReadyState.padding.left
          + sampleReadyState.padding.right
      ∧ out.height = sampleReadyState.size + sampleReadyState.padding.top
          + sampleReadyState.padding.bottom
      ∧ ∀ (i j : ℕ), ∀ op ∈ cellOps sampleReadyState i j,
          opRect op
            = some (sampleReadyState.size / 8 * (7 - (j : ℚ) + 1)
                  - sampleReadyState.size / 8 + sampleReadyState.padding.left,
                sampleReadyState.size / 8 * (i : ℚ) + sampleReadyState.padding.top,
                sampleReadyState.size / 8, sampleReadyState.size / 8) :=
  render_geometry sampleReadyState [] rfl rfl

/-- Helper: how one call changes the readiness flag: it stays set, and a
successful load sets it. -/
lemma run_ready (st : GenState) (op : Op) :
    (run st op).ready = (st.ready || successfulLoad op) := by
  cases op with
  | opLoadPGN res => cases res <;> simp [run, loadPGN, successfulLoad]
  | opLoadFEN res => cases res <;> simp [run, loadFEN, successfulLoad]
  | opLoadArray g => simp [run, loadArray, successfulLoad]
  | opAddArrows l => simp [run, addArrows, successfulLoad]
  | opHighlightSquares l => simp [run, highlightSquares, successfulLoad]
  | opGenerateBuffer => simp [run, successfulLoad, generateBuffer_fst]
  | opGeneratePNG p => simp [run, successfulLoad, generatePNG_fst]

/-- Helper: the readiness flag after a call sequence is set exactly when
the sequence contains a successful load. -/
lemma runList_ready (st : GenState) (ops : List Op) :
    (runList st ops).ready = (st.ready || ops.any successfulLoad) := by
  induction ops generalizing st with
  | nil => simp [runList]
  | cons op rest ih =>
    show (runList (run st op) rest).ready = _
    rw [ih (run st op), run_ready]
    simp [Bool.or_assoc]

/-- Helper: with the readiness flag clear, both render entry points throw
the not-ready error. -/
lemma render_notready (st : GenState) (path : String) (h : st.ready = false) :
    (generateBuffer st).2 = Except.error ("Load a position first")
    ∧ (generatePNG st path).2 = Except.error ("Load a position first") := by
  constructor
  · simp [generateBuffer, h]
  · simp [generatePNG, h]

/-- Helper: with the readiness flag set, neither render entry point takes
the not-ready branch. -/
lemma render_ready (st : GenState) (path : String) (h : st.ready = true) :
    (generateBuffer st).2 ≠ Except.error ("Load a position first")
    ∧ (generatePNG st path).2 ≠ Except.error ("Load a position first") := by
  have hb : (generateBuffer st).2 ≠ Except.error ("Load a position first") := by
    cases harr : st.arrows with
    | none => simp [generateBuffer, h, harr]
    | some l => simp [generateBuffer, h, harr]
  refine ⟨hb, ?_⟩
  rw [generatePNG, if_neg (by simp [h])]
  exact hb

/-- C2: starting from a freshly constructed instance, after a call
sequence containing no successful load both render entry points throw the
not-ready error; after a call sequence containing a successful load
(notation or grid) the readiness flag is set and neither entry point takes
the not-ready branch. -/
theorem notready_gate (d : Defaults) (o : Options) (ops : List Op) (path : String) :
    ((∀ op ∈ ops, successfulLoad op = false) →
      (runList (ChessImageGenerator d o) ops).ready = false
      ∧ (generateBuffer (runList (ChessImageGenerator d o) ops)).2
          = Except.error ("Load a position first")
      ∧ (generatePNG (runList (ChessImageGenerator d o) ops) path).2
          = Except.error ("Load a position first"))
    ∧ ((∃ op ∈ ops, successfulLoad op = true) →
      (runList (ChessImageGenerator d o) ops).ready = true
      ∧ (generateBuffer (runList (ChessImageGenerator d o) ops)).2
          ≠ Except.error ("Load a position first")
      ∧ (generatePNG (runList (ChessImageGenerator d o) ops) path).2
          ≠ Except.error ("Load a position first")) := by
  have hinit : (ChessImageGenerator d o).ready = false := rfl
  have hready := runList_ready (ChessImageGenerator d o) ops
  rw [hinit, Bool.false_or] at hready
  constructor
  · intro hnone
    have hany : ops.any successfulLoad = false := by
      rw [List.any_eq_false]
      intro op hop
      rw [hnone op hop]
      exact Bool.false_ne_true
    have h0 : (runList (ChessImageGenerator d o) ops).ready = false := by
      rw [hready, hany]
    rcases render_notready _ path h0 with ⟨h1, h2⟩
    exact ⟨h0, h1, h2⟩
  · intro hsome
    have hany : ops.any successfulLoad = true := by
      rw [List.any_eq_true]
      rcases hsome with ⟨op, hop, hsucc⟩
      exact ⟨op, hop, hsucc⟩
    have h0 : (runList (ChessImageGenerator d o) ops).ready = true := by
      rw [hready, hany]
    rcases render_ready _ path h0 with ⟨h1, h2⟩
    exact ⟨h0, h1, h2⟩

/-- Witness for C2: the empty call sequence on one side, a lone grid load
on the other. -/
theorem notready_gate_witness :
    ((runList (ChessImageGenerator ⟨480, ⟨0, 0, 0, 0⟩, ("l"), ("d"), ("h"), ("s")⟩
        emptyOptions) []).ready = false
      ∧ (generateBuffer (runList (ChessImageGenerator
          ⟨480, ⟨0, 0, 0, 0⟩, ("l"), ("d"), ("h"), ("s")⟩ emptyOptions) [])).2
          = Except.error ("Load a position first"))
    ∧ ((runList (ChessImageGenerator ⟨480, ⟨0, 0, 0, 0⟩, ("l"), ("d"), ("h"), ("s")⟩
        emptyOptions) [Op.opLoadArray sampleGrid]).ready = true
      ∧ (generateBuffer (runList (ChessImageGenerator
          ⟨480, ⟨0, 0, 0, 0⟩, ("l"), ("d"), ("h"), ("s")⟩ emptyOptions)
          [Op.opLoadArray sampleGrid])).2 ≠ Except.error ("Load a position first")) := by
  have h1 := (notready_gate ⟨480, ⟨0, 0, 0, 0⟩, ("l"), ("d"), ("h"), ("s")⟩
    emptyOptions [] ("out.png")).1 (by intro op hop; cases hop)
  have h2 := (notready_gate ⟨480, ⟨0, 0, 0, 0⟩, ("l"), ("d"), ("h"), ("s")⟩
    emptyOptions [Op.opLoadArray sampleGrid] ("out.png")).2
    ⟨Op.opLoadArray sampleGrid, List.mem_singleton_self _, rfl⟩
  exact ⟨⟨h1.1, h1.2.1⟩, ⟨h2.1, h2.2.1⟩⟩

/-- C7: when the rules engine rejects the notation, `loadFEN` and
`loadPGN` throw their could-not-be-read errors and leave the instance —
in particular its readiness flag — exactly as it was; readiness becomes
set only through a successful load. -/
theorem load_failure_keeps_state (st : GenState) :
    loadFEN st none = (st, Except.error ("FEN could not be read successfully"))
    ∧ loadPGN st none = (st, Except.error ("PGN could not be read successfully"))
    ∧ ∀ res, (loadFEN st res).1.ready = (st.ready || res.isSome)
        ∧ (loadPGN st res).1.ready = (st.ready || res.isSome) := by
  refine ⟨rfl, rfl, fun res => ?_⟩
  cases res <;> simp [loadFEN, loadPGN]

/-- C10: in every options object, a field holding a falsy value — size 0,
an empty color string, an empty style string — makes the constructor use
the built-in default for that field, and the constructed instance is the
very one obtained by omitting that field, whatever the other fields hold. -/
theorem falsy_options_use_defaults (d : Defaults) (o : Options) :
    (o.size = some 0 →
      (ChessImageGenerator d o).size = d.size
      ∧ ChessImageGenerator d o = ChessImageGenerator d { o with size := none })
    ∧ (o.light = some ("") →
      (ChessImageGenerator d o).light = d.light
      ∧ ChessImageGenerator d o = ChessImageGenerator d { o with light := none })
    ∧ (o.dark = some ("") →
      (ChessImageGenerator d o).dark = d.dark
      ∧ ChessImageGenerator d o = ChessImageGenerator d { o with dark := none })
    ∧ (o.highlight = some ("") →
      (ChessImageGenerator d o).highlight = d.highlight
      ∧ ChessImageGenerator d o = ChessImageGenerator d { o with highlight := none })
    ∧ (o.style = some ("") →
      (ChessImageGenerator d o).style = d.style
      ∧ ChessImageGenerator d o = ChessImageGenerator d { o with style := none }) := by
  refine ⟨fun h => ⟨?_, ?_⟩, fun h => ⟨?_, ?_⟩, fun h => ⟨?_, ?_⟩,
    fun h => ⟨?_, ?_⟩, fun h => ⟨?_, ?_⟩⟩ <;>
    simp [ChessImageGenerator, jsOrQ, jsOrStr, h]

/-- A mixed options object: falsy size and style next to a supplied light
color and flip flag. -/
def mixedOptions : Options :=
  ⟨some 0, none, some ("#ccc"), none, none, some (""), some true⟩

/-- Witness for C10 at a concrete defaults record and the mixed options
object: its falsy size and style fall back to the defaults while the
supplied light color stays. -/
theorem falsy_options_defaults_witness :
    (ChessImageGenerator ⟨480, ⟨0, 0, 0, 0⟩, ("l"), ("d"), ("h"), ("s")⟩
        mixedOptions).size = 480
    ∧ ChessImageGenerator ⟨480, ⟨0, 0, 0, 0⟩, ("l"), ("d"), ("h"), ("s")⟩ mixedOptions
        = ChessImageGenerator ⟨480, ⟨0, 0, 0, 0⟩, ("l"), ("d"), ("h"), ("s")⟩
            { mixedOptions with size := none }
    ∧ (ChessImageGenerator ⟨480, ⟨0, 0, 0, 0⟩, ("l"), ("d"), ("h"), ("s")⟩
        mixedOptions).style = ("s")
    ∧ (ChessImageGenerator ⟨480, ⟨0, 0, 0, 0⟩, ("l"), ("d"), ("h"), ("s")⟩
        mixedOptions).light = ("#ccc") :=
  ⟨((falsy_options_use_defaults ⟨480, ⟨0, 0, 0, 0⟩, ("l"), ("d"), ("h"), ("s")⟩
      mixedOptions).1 rfl).1,
   ((falsy_options_use_defaults ⟨480, ⟨0, 0, 0, 0⟩, ("l"), ("d"), ("h"), ("s")⟩
      mixedOptions).1 rfl).2,
   ((falsy_options_use_defaults ⟨480, ⟨0, 0, 0, 0⟩, ("l"), ("d"), ("h"), ("s")⟩
      mixedOptions).2.2.2.2 rfl).1,
   rfl⟩

/-- C1: on a freshly constructed instance that has successfully loaded a
position but on which `addArrows` was never called, `generateBuffer` does
not succeed drawing no arrows: the `arrows` field is still undefined and
`this.arrows.forEach` throws a TypeError.  (The spec's intended behavior —
absence of an arrow list means no arrows — does not hold of the code.) -/
theorem generateBuffer_missing_arrows (d : Defaults) (g : List (List String)) :
    (loadArray (ChessImageGenerator d emptyOptions) g).ready = true
    ∧ (loadArray (ChessImageGenerator d emptyOptions) g).arrows = none
    ∧ (generateBuffer (loadArray (ChessImageGenerator d emptyOptions) g)).2
        = Except.error ("TypeError") :=
  ⟨rfl, rfl, rfl⟩
